import Mathlib

/-!
Verification of the lexical and object-production front-end of an
ECMAScript-family language implementation (swc's `ecmascript/parser`).

The object-production code (`src/parser/object.rs`) is embedded directly.
The lexer itself is not part of the provided sources (only its test suite
is), so the lexer is modelled from the specification (spec.md §4.1) and
validated against the expected outputs recorded in the test suite
(`src/lexer/tests.rs`).

Positions are character indices into the input (the source uses byte
offsets; every claim-relevant input is ASCII, where the two coincide,
and the model uses character indices uniformly).
-/

namespace Swc

/-- Span: half-open `[lo, hi)` range, `src/lexer/tests.rs` builds them from
`BytePos` pairs. -/
structure Span where
  lo : Nat
  hi : Nat
  deriving DecidableEq, Repr

/-- Keywords needed by the modelled lexer and the object production.
Modelled from the spec: the token model has a closed `Word(Ident|Keyword)`
variant; this enumerates the keywords the covered grammar mentions. -/
inductive Keyword where
  | kfunction | kif | kelse | kwhile | kwith | kfor
  | kreturn | kyield | kvoid | kvar | knew | kin | ktypeof
  deriving DecidableEq, Repr

/-- Word: identifier, keyword or one of the literal words.
Modelled from the spec §3 token model (`Word(Ident|Keyword)`; the test
suite also uses `Word::False`, so the literal words are separate variants
as in the source's `Word` type). -/
inductive Word where
  | ident (s : String)
  | kw (k : Keyword)
  | wtrue
  | wfalse
  | wnull
  deriving DecidableEq, Repr

/-- Text of a keyword. -/
def Keyword.text : Keyword → String
  | .kfunction => "function"
  | .kif => "if"
  | .kelse => "else"
  | .kwhile => "while"
  | .kwith => "with"
  | .kfor => "for"
  | .kreturn => "return"
  | .kyield => "yield"
  | .kvoid => "void"
  | .kvar => "var"
  | .knew => "new"
  | .kin => "in"
  | .ktypeof => "typeof"

/-- `Word → JsWord` conversion (`w.into()` in `parse_prop_name`). -/
def Word.text : Word → String
  | .ident s => s
  | .kw k => k.text
  | .wtrue => "true"
  | .wfalse => "false"
  | .wnull => "null"

/-- The closed `SyntaxError` enumeration (spec §6: at least `LegacyOctal`,
`LegacyDecimal`, `LegacyCommentInModule`, `ReservedWordInObjShorthandOrPat`
and a generic unexpected-token kind; the model adds the lexical
unterminated-literal kinds its scanners can produce). -/
inductive SyntaxErrorKind where
  | legacyOctal
  | legacyDecimal
  | legacyCommentInModule
  | reservedWordInObjShorthandOrPat
  | unexpected
  | expectedToken
  | unterminatedStr
  | unterminatedRegex
  | unknownChar
  deriving DecidableEq, Repr

/-- The payload of an `Error` token: a `SyntaxError` kind plus the span it
covers (`error::Error { span, error }` in the test suite). -/
structure LexError where
  span : Span
  error : SyntaxErrorKind
  deriving DecidableEq, Repr

/-- A string-literal payload (`Str { span, value, has_escape }`). -/
structure StrLit where
  span : Span
  value : String
  has_escape : Bool
  deriving DecidableEq, Repr

/-- Binary-operator tokens (only those the covered inputs use). -/
inductive BinOpToken where
  | div | add | sub | mul
  deriving DecidableEq, Repr

/-- Assignment-operator tokens (only plain `=` and `/=` are needed). -/
inductive AssignOpToken where
  | assign | divAssign
  deriving DecidableEq, Repr

/-- Token: the closed variant set of spec §3. Numeric values are `Nat`:
the source stores `f64`, but every claim-relevant literal is a small
integer, where the two agree. -/
inductive Token where
  | lparen | rparen | lbrace | rbrace | lbracket | rbracket
  | semi | comma | colon | dot
  | num (value : Nat)
  | str (value : String) (has_escape : Bool)
  | regex (content : StrLit) (flags : Option StrLit)
  | word (w : Word)
  | binOp (op : BinOpToken)
  | assignOp (op : AssignOpToken)
  | error (e : LexError)
  deriving DecidableEq, Repr

/-- `TokenAndSpan`: a token, its span, and the `had_line_break` flag
(spec §3: "at least one line terminator occurred between the end of the
previous token and the start of this one"). -/
structure TokenAndSpan where
  token : Token
  span : Span
  had_line_break : Bool
  deriving DecidableEq, Repr

/-! ## Character classes -/

/-- ECMAScript line terminators (spec §4.1 line-break tracking:
`\n`/`\r`/line-separator characters). -/
def isLineTerminator (c : Char) : Bool :=
  c = '\n' || c = '\r' || c = '\u2028' || c = '\u2029'

/-- Non-terminator whitespace. -/
def isWsChar (c : Char) : Bool :=
  c = ' ' || c = '\t' || c = '\u000b' || c = '\u000c' || c = '\u00a0'

def isDigit (c : Char) : Bool := '0' ≤ c && c ≤ '9'

def isIdentStart (c : Char) : Bool :=
  ('a' ≤ c && c ≤ 'z') || ('A' ≤ c && c ≤ 'Z') || c = '$' || c = '_'

def isIdentChar (c : Char) : Bool := isIdentStart c || isDigit c

def isHexDigit (c : Char) : Bool :=
  isDigit c || ('a' ≤ c && c ≤ 'f') || ('A' ≤ c && c ≤ 'F')

def hexVal (c : Char) : Nat :=
  if isDigit c then c.toNat - '0'.toNat
  else if 'a' ≤ c && c ≤ 'f' then c.toNat - 'a'.toNat + 10
  else if 'A' ≤ c && c ≤ 'F' then c.toNat - 'A'.toNat + 10
  else 0

/-! ## Trivia (whitespace and comments)

Modelled from the spec: the byte-source abstraction and the skip-space
routine are not in the provided sources. Spec §4.1: the line-break flag is
"was at least one line terminator skipped since the previous token,"
independent of comments also being skipped; `//` comments run to a line
terminator and `/* */` comments to the closing `*/`. -/

/-- Mode of the trivia scanner: outside any comment, inside a `//` comment,
or inside a `/* */` comment. -/
inductive TriviaMode where
  | normal
  | line
  | block
  deriving DecidableEq, Repr

/-- Skip whitespace and comments; returns the number of characters consumed
and whether any line terminator was among them (`lb` is the accumulator). -/
def skipTrivia : TriviaMode → Bool → List Char → Nat × Bool
  | _, lb, [] => (0, lb)
  | .normal, lb, '/' :: '/' :: rest =>
      let r := skipTrivia .line lb rest
      (r.1 + 2, r.2)
  | .normal, lb, '/' :: '*' :: rest =>
      let r := skipTrivia .block lb rest
      (r.1 + 2, r.2)
  | .normal, lb, c :: rest =>
      if isLineTerminator c then
        let r := skipTrivia .normal true rest
        (r.1 + 1, r.2)
      else if isWsChar c then
        let r := skipTrivia .normal lb rest
        (r.1 + 1, r.2)
      else (0, lb)
  | .line, lb, c :: rest =>
      if isLineTerminator c then
        let r := skipTrivia .normal true rest
        (r.1 + 1, r.2)
      else
        let r := skipTrivia .line lb rest
        (r.1 + 1, r.2)
  | .block, lb, '*' :: '/' :: rest =>
      let r := skipTrivia .normal lb rest
      (r.1 + 2, r.2)
  | .block, lb, c :: rest =>
      if isLineTerminator c then
        let r := skipTrivia .block true rest
        (r.1 + 1, r.2)
      else
        let r := skipTrivia .block lb rest
        (r.1 + 1, r.2)

/-! ## Token scanners

Modelled from the spec §4.1 (the scanner itself is not among the provided
sources); behavior is validated below against the expected outputs recorded
in `src/lexer/tests.rs`. -/

/-- Classify an identifier run as keyword / literal word / identifier. -/
def wordOf (s : String) : Word :=
  match s with
  | "function" => .kw .kfunction
  | "if" => .kw .kif
  | "else" => .kw .kelse
  | "while" => .kw .kwhile
  | "with" => .kw .kwith
  | "for" => .kw .kfor
  | "return" => .kw .kreturn
  | "yield" => .kw .kyield
  | "void" => .kw .kvoid
  | "var" => .kw .kvar
  | "new" => .kw .knew
  | "in" => .kw .kin
  | "typeof" => .kw .ktypeof
  | "true" => .wtrue
  | "false" => .wfalse
  | "null" => .wnull
  | _ => .ident s

/-- Read an identifier/keyword run (first char known to be an ident start). -/
def readWord (rem : List Char) : Token × Nat :=
  let cs := rem.takeWhile isIdentChar
  (.word (wordOf (String.mk cs)), cs.length)

def isOctalDigit (c : Char) : Bool := '0' ≤ c && c ≤ '7'

def decValue (ds : List Char) : Nat :=
  ds.foldl (fun a c => a * 10 + (c.toNat - '0'.toNat)) 0

def octValue (ds : List Char) : Nat :=
  ds.foldl (fun a c => a * 8 + (c.toNat - '0'.toNat)) 0

/-- Read a numeric literal (first char known to be a digit). Spec §4.1:
a leading `0` followed by more digits is a legacy form; under strict/module
context it is a lex error (`LegacyOctal` when all digits are octal,
`LegacyDecimal` otherwise) represented as a single `Error` token spanning
the whole literal; outside that context it is an ordinary numeric token. -/
def readNumber (strict : Bool) (start : Nat) (rem : List Char) : Token × Nat :=
  let ds := rem.takeWhile isDigit
  if ds.head? = some '0' && ds.length ≥ 2 then
    if ds.all isOctalDigit then
      if strict then
        (.error ⟨⟨start, start + ds.length⟩, .legacyOctal⟩, ds.length)
      else (.num (octValue ds), ds.length)
    else
      if strict then
        (.error ⟨⟨start, start + ds.length⟩, .legacyDecimal⟩, ds.length)
      else (.num (decValue ds), ds.length)
  else (.num (decValue ds), ds.length)

/-- Decode one escape sequence (the characters after the backslash);
returns the decoded contribution and the number of characters consumed.
Spec §4.1: hex `\xHH`, legacy octal `\NNN`, short unicode `\uHHHH`, braced
`\u{H+}` (arbitrary digit count), line continuation, and single-character
escapes. -/
def readEscape : List Char → Option (String × Nat)
  | [] => none
  | 'x' :: a :: b :: _ =>
      if isHexDigit a && isHexDigit b then
        some (String.mk [Char.ofNat (hexVal a * 16 + hexVal b)], 3)
      else none
  | 'x' :: _ => none
  | 'u' :: '{' :: rest =>
      let ds := rest.takeWhile isHexDigit
      if ds.length ≠ 0 && (rest.drop ds.length).head? = some '}' then
        some (String.mk [Char.ofNat (ds.foldl (fun a c => a * 16 + hexVal c) 0)],
              2 + ds.length + 1)
      else none
  | 'u' :: a :: b :: c :: d :: _ =>
      if isHexDigit a && isHexDigit b && isHexDigit c && isHexDigit d then
        some (String.mk [Char.ofNat (((hexVal a * 16 + hexVal b) * 16 + hexVal c) * 16 + hexVal d)], 5)
      else none
  | 'u' :: _ => none
  | 'n' :: _ => some ("\n", 1)
  | 't' :: _ => some ("\t", 1)
  | 'r' :: _ => some ("\r", 1)
  | 'b' :: _ => some ("\x08", 1)
  | 'f' :: _ => some ("\x0c", 1)
  | 'v' :: _ => some ("\x0b", 1)
  | c :: rest =>
      if isLineTerminator c then some ("", 1)
      else if isOctalDigit c then
        let ds := (c :: rest).takeWhile isOctalDigit
        let maxLen := if c ≤ '3' then 3 else 2
        let use := min ds.length maxLen
        some (String.mk [Char.ofNat (octValue (ds.take use))], use)
      else some (String.mk [c], 1)

/-- Read the body of a string literal after the opening quote `q`; returns
the decoded value, whether any escape occurred, and the characters consumed
(including the closing quote); `none` when unterminated. Fuel-indexed so
the definition is structurally recursive (each step consumes at least one
character, so fuel `length + 1` never runs out before the input does). -/
def readStrBody (q : Char) : Nat → List Char → Option (String × Bool × Nat)
  | _, [] => none
  | 0, _ :: _ => none
  | fuel + 1, c :: rest =>
      if c = q then some ("", false, 1)
      else if c = '\\' then
        match readEscape rest with
        | none => none
        | some (contrib, n) =>
            match readStrBody q fuel (rest.drop n) with
            | none => none
            | some (v, _, m) => some (contrib ++ v, true, 1 + n + m)
      else if isLineTerminator c then none
      else
        match readStrBody q fuel rest with
        | none => none
        | some (v, e, m) => some (String.mk [c] ++ v, e, 1 + m)

/-- Read a string literal; `rem` is positioned after the opening quote. -/
def readStr (start : Nat) (q : Char) (rem : List Char) : Token × Nat :=
  match readStrBody q (rem.length + 1) rem with
  | some (v, esc, n) => (.str v esc, 1 + n)
  | none => (.error ⟨⟨start, start + 1 + rem.length⟩, .unterminatedStr⟩, 1 + rem.length)

/-- Scan a regex body after the opening `/`: greedily to the closing
unescaped `/` outside a character class (spec §4.1). Returns the raw
content characters and the count consumed (content plus closing `/`). -/
def readRegexBody : List Char → Bool → Bool → Option (List Char × Nat)
  | [], _, _ => none
  | c :: rest, escaped, inClass =>
      if isLineTerminator c then none
      else if escaped then
        match readRegexBody rest false inClass with
        | none => none
        | some (v, n) => some (c :: v, n + 1)
      else if c = '\\' then
        match readRegexBody rest true inClass with
        | none => none
        | some (v, n) => some (c :: v, n + 1)
      else if c = '[' then
        match readRegexBody rest false true with
        | none => none
        | some (v, n) => some (c :: v, n + 1)
      else if c = ']' then
        match readRegexBody rest false false with
        | none => none
        | some (v, n) => some (c :: v, n + 1)
      else if c = '/' && !inClass then some ([], 1)
      else
        match readRegexBody rest false inClass with
        | none => none
        | some (v, n) => some (c :: v, n + 1)

/-- Read a regex literal; `rem` is positioned after the opening `/`.
Flags are a (possibly empty) run of identifier characters after the
closing `/`; an empty run yields no flags value. -/
def readRegex (start : Nat) (rem : List Char) : Token × Nat :=
  match readRegexBody rem false false with
  | none => (.error ⟨⟨start, start + 1 + rem.length⟩, .unterminatedRegex⟩, 1 + rem.length)
  | some (content, n) =>
      let flagCs := (rem.drop n).takeWhile isIdentChar
      let contentStr : StrLit :=
        ⟨⟨start + 1, start + 1 + content.length⟩, String.mk content,
         content.contains '\\'⟩
      let flags : Option StrLit :=
        if flagCs.length = 0 then none
        else some ⟨⟨start + 1 + n, start + 1 + n + flagCs.length⟩, String.mk flagCs, false⟩
      (.regex contentStr flags, 1 + n + flagCs.length)

/-- Read one token at absolute position `start`; `isExprAllowed` selects
regex vs. division on `/` (spec §4.1). Returns the token and the number of
characters consumed. -/
def readToken (strict isExprAllowed : Bool) (start : Nat) : List Char → Token × Nat
  | [] => (.error ⟨⟨start, start⟩, .unknownChar⟩, 1)
  | c :: rest =>
      if c = '(' then (.lparen, 1)
      else if c = ')' then (.rparen, 1)
      else if c = '{' then (.lbrace, 1)
      else if c = '}' then (.rbrace, 1)
      else if c = '[' then (.lbracket, 1)
      else if c = ']' then (.rbracket, 1)
      else if c = ';' then (.semi, 1)
      else if c = ',' then (.comma, 1)
      else if c = ':' then (.colon, 1)
      else if c = '.' then (.dot, 1)
      else if c = '/' then
        if isExprAllowed then readRegex start rest
        else if rest.head? = some '=' then (.assignOp .divAssign, 2)
        else (.binOp .div, 1)
      else if c = '=' then (.assignOp .assign, 1)
      else if c = '+' then (.binOp .add, 1)
      else if c = '-' then (.binOp .sub, 1)
      else if c = '*' then (.binOp .mul, 1)
      else if isDigit c then readNumber strict start (c :: rest)
      else if c = '\'' || c = '"' then readStr start c rest
      else if isIdentStart c then readWord (c :: rest)
      else (.error ⟨⟨start, start + 1⟩, .unknownChar⟩, 1)

/-! ## Lexer state machine

Modelled from the spec §4.1/§9: regex-vs-division is decided from the
previous non-trivia token plus "a small stack/flag" recording whether the
most recently closed `)`/`}` belonged to a construct that cannot stand
alone as a value. The model keeps a stack of token contexts and a boolean
`isExprAllowed`, updated after every token. -/

/-- Contexts on the lexer's disambiguation stack: statement vs. expression
parentheses/braces, and a marker under the brace body of a function used
in expression position. -/
inductive TokenContext where
  | braceStmt
  | braceExpr
  | parenStmt
  | parenExpr
  | fnExpr
  deriving DecidableEq, Repr

/-- Is this context an expression context (closing it yields a value)? -/
def TokenContext.isExprCtx : TokenContext → Bool
  | .braceExpr | .parenExpr => true
  | _ => false

/-- Tokens after which an expression (hence a regex) may start. -/
def Token.beforeExpr : Token → Bool
  | .lparen | .lbrace | .lbracket | .semi | .comma | .colon => true
  | .binOp _ | .assignOp _ => true
  | .word (.kw k) =>
      match k with
      | .kreturn | .kelse | .kyield | .kvoid | .knew | .kin | .ktypeof => true
      | _ => false
  | _ => false

/-- Does a `{` here open a block statement (as opposed to an object
literal)? Decided from the previous token, the line-break flag and the
current expression-allowed flag. -/
def isBraceBlock (ctx : List TokenContext) (prev : Option Token)
    (hadLb isExprAllowed : Bool) : Bool :=
  if prev = some .colon && ctx.head? = some .braceStmt then true
  else if prev = some .colon && ctx.head? = some .braceExpr then false
  else
    match prev with
    | some (.word (.kw .kreturn)) | some (.word (.kw .kyield)) => hadLb
    | some (.word (.kw .kelse)) | some .semi | none | some .rparen => true
    | some .lbrace => ctx.head? = some .braceStmt
    | _ => !isExprAllowed

/-- Update the context stack and the expression-allowed flag after emitting
`tok` (`prev` is the token before it). -/
def applyToken (ctx : List TokenContext) (prev : Option Token) (tok : Token)
    (hadLb isExprAllowed : Bool) : List TokenContext × Bool :=
  let isKeywordTok := match tok with | .word (.kw _) => true | _ => false
  if isKeywordTok && prev = some .dot then (ctx, false)
  else
    match tok with
    | .rparen | .rbrace =>
        (match ctx with
         | [] => (([] : List TokenContext), true)
         | out :: rest =>
             if out = .braceStmt && rest.head? = some .fnExpr then
               (rest.tail, false)
             else (rest, !out.isExprCtx))
    | .word (.kw .kfunction) =>
        if isExprAllowed && !isBraceBlock ctx prev hadLb isExprAllowed then
          (.fnExpr :: ctx, false)
        else (ctx, false)
    | .word (.ident _) =>
        (ctx,
         match prev with
         | some (.word (.kw .kvar)) => hadLb
         | _ => false)
    | .lbrace =>
        if isBraceBlock ctx prev hadLb isExprAllowed then
          (.braceStmt :: ctx, true)
        else (.braceExpr :: ctx, true)
    | .lparen =>
        (match prev with
         | some (.word (.kw .kif)) | some (.word (.kw .kwith))
         | some (.word (.kw .kwhile)) | some (.word (.kw .kfor)) =>
             (TokenContext.parenStmt :: ctx, true)
         | _ => (TokenContext.parenExpr :: ctx, true))
    | _ => (ctx, tok.beforeExpr)

/-- Lexer state carried between tokens (spec §4.1: mode flags, the previous
token's class, and the disambiguation stack; `isFirst` makes the flag of
the very first token come out as the tests record it). -/
structure LexState where
  pos : Nat
  isFirst : Bool
  isExprAllowed : Bool
  ctx : List TokenContext
  prev : Option Token
  strict : Bool
  module : Bool
  deriving Repr

/-- Produce one `TokenAndSpan` (or `none` at end of input) and the
successor state. -/
def lexStep (src : List Char) (st : LexState) : Option (TokenAndSpan × LexState) :=
  let rem := src.drop st.pos
  let t := skipTrivia .normal false rem
  let start := st.pos + t.1
  let rem2 := rem.drop t.1
  match rem2 with
  | [] => none
  | c :: cs =>
      let hadLb := st.isFirst || t.2
      match readToken st.strict st.isExprAllowed start (c :: cs) with
      | (tok, len) =>
          match applyToken st.ctx st.prev tok hadLb st.isExprAllowed with
          | (ctx2, allowed2) =>
              some (⟨tok, ⟨start, start + len⟩, hadLb⟩,
                    { st with
                        pos := start + len
                        isFirst := false
                        isExprAllowed := allowed2
                        ctx := ctx2
                        prev := some tok })

/-- Drain the lexer (fuel-indexed loop; each step consumes at least one
character, so `src.length + 1` fuel drains any input). -/
def lexLoop (src : List Char) : Nat → LexState → List TokenAndSpan
  | 0, _ => []
  | fuel + 1, st =>
      match lexStep src st with
      | none => []
      | some (t, st2) => t :: lexLoop src fuel st2

def initState (strict module : Bool) : LexState :=
  ⟨0, true, true, [], none, strict, module⟩

/-- Lex a whole script (non-module, non-strict) — the test helper `lex`. -/
def lex (s : List Char) : List TokenAndSpan :=
  lexLoop s (s.length + 1) (initState false false)

/-- Lex in module (strict) context — the test helper `lex_module`. -/
def lexModule (s : List Char) : List TokenAndSpan :=
  lexLoop s (s.length + 1) (initState true true)

/-- Tokens only, as the test helper `lex_tokens`. -/
def lexTokens (s : List Char) : List Token :=
  (lex s).map TokenAndSpan.token

/-! ## AST (the fragments `src/parser/object.rs` builds) -/

/-- Identifier node (`Ident { span, sym }`). -/
structure Ident where
  span : Span
  sym : String
  deriving DecidableEq, Repr

/-- Numeric literal node (`Number { span, value }`). -/
structure NumberLit where
  span : Span
  value : Nat
  deriving DecidableEq, Repr

mutual

/-- Expressions, restricted to the shapes the covered code builds: object
literals plus the leaf expressions the modelled collaborator
`parseAssignExpr` produces. -/
inductive Expr where
  | object (span : Span) (props : List PropE)
  | identE (i : Ident)
  | numE (n : NumberLit)
  | strE (s : StrLit)
  | boolE (span : Span) (b : Bool)
  | nullE (span : Span)

/-- `PropName`: the four legal property-key shapes (spec §3). -/
inductive PropName where
  | identP (i : Ident)
  | strP (s : StrLit)
  | numP (n : NumberLit)
  | computed (e : Expr)

/-- Expression-side properties (`Prop` in the source). -/
inductive PropE where
  | shorthand (i : Ident)
  | keyValue (key : PropName) (value : Expr)
  | assignP (key : Ident) (value : Expr)
  | getter (span : Span) (key : PropName) (body : Span)
  | setter (span : Span) (key : PropName) (body : Span) (param : Pat)
  | methodP (key : PropName) (function : FunctionE)

/-- Patterns, restricted to the shapes the covered code builds. -/
inductive Pat where
  | identPat (i : Ident)
  | objectPat (span : Span) (props : List ObjectPatProp)

/-- Pattern-side properties (`ObjectPatProp` in the source). -/
inductive ObjectPatProp where
  | keyValuePat (key : PropName) (value : Pat)
  | assignPat (span : Span) (key : Ident) (value : Option Expr)

/-- `Function` node: parameters, body (modelled as the braces' span; the
statement grammar is an external collaborator), async/generator flags. -/
inductive FunctionE where
  | mk (params : List Pat) (body : Span) (isAsync : Bool) (isGenerator : Bool)

end

/-- Parameter list of a `Function` node. -/
def FunctionE.params : FunctionE → List Pat
  | .mk ps _ _ _ => ps

/-- Body span of a `Function` node. -/
def FunctionE.body : FunctionE → Span
  | .mk _ b _ _ => b

/-! ## Parser driver

Modelled from the spec §6: the driver wraps the lexer behind one-token
lookahead and offers `cur`/`bump`/`eat`/`expect`/`is`, position capture and
span computation. The model's state is the not-yet-consumed token list plus
the end position of the last consumed token (`span!(start)` spans from
`start` to that position). -/

/-- Parse error: offending span plus a `SyntaxError` kind (spec §6). -/
structure PError where
  span : Span
  kind : SyntaxErrorKind
  deriving DecidableEq, Repr

/-- Parser state: remaining tokens and the end of the last consumed one. -/
structure PState where
  tokens : List TokenAndSpan
  lastPos : Nat
  deriving Repr

/-- `cur!()`: current token, if any. -/
def curTok (s : PState) : Option Token :=
  s.tokens.head?.map TokenAndSpan.token

/-- `cur_pos!()`: start of the current token (end of input otherwise). -/
def curPos (s : PState) : Nat :=
  match s.tokens.head? with
  | some t => t.span.lo
  | none => s.lastPos

/-- Span of the current token, for error reporting. -/
def curSpan (s : PState) : Span :=
  match s.tokens.head? with
  | some t => t.span
  | none => ⟨s.lastPos, s.lastPos⟩

/-- `bump!()` after a successful `cur` check: drop the current token. -/
def bumpTok (s : PState) : PState :=
  match s.tokens with
  | [] => s
  | t :: rest => ⟨rest, t.span.hi⟩

/-- `eat!(t)`: consume the current token iff it equals `t`. -/
def eatTok (t : Token) (s : PState) : Bool × PState :=
  if curTok s = some t then (true, bumpTok s) else (false, s)

/-- `is!(t)`: test the current token without consuming. -/
def isTok (t : Token) (s : PState) : Bool :=
  curTok s = some t

/-- `expect!(t)`: consume the current token or fail. -/
def expectTok (t : Token) (s : PState) : Except PError PState :=
  if curTok s = some t then .ok (bumpTok s)
  else .error ⟨curSpan s, .expectedToken⟩

/-- `span!(start)`: from `start` to the end of the last consumed token. -/
def mkSpan (start : Nat) (s : PState) : Span :=
  ⟨start, s.lastPos⟩

/-- `unexpected!()`: fail at the current token. -/
def unexpectedErr (s : PState) : PError :=
  ⟨curSpan s, .unexpected⟩

/-! ## Modelled external collaborators of the object production -/

/-- Modelled from the spec §6: "is this identifier a reserved word under
current strict/module mode" — the ECMAScript reserved words (the
`is_reserved_word` context predicate; missing from the provided sources). -/
def reservedWords : List String :=
  ["break", "case", "catch", "class", "const", "continue", "debugger",
   "default", "delete", "do", "else", "enum", "export", "extends", "false",
   "finally", "for", "function", "if", "import", "in", "instanceof", "new",
   "null", "return", "super", "switch", "this", "throw", "true", "try",
   "typeof", "var", "void", "while", "with"]

def isReservedWord (w : String) : Bool :=
  reservedWords.contains w

/-- Modelled from the spec: `parse_assignment_expr` is part of the excluded
full expression grammar (spec §1/§6, an external collaborator); the model
parses one leaf expression token (numeric, string, identifier or literal
word), which covers every value position the claims exercise. The `in`
context toggle (`include_in_expr`) does not affect leaf expressions, so the
model takes no context argument. -/
def parseAssignExpr (s : PState) : Except PError (Expr × PState) :=
  match s.tokens with
  | t :: rest =>
      match t.token with
      | .num n => .ok (.numE ⟨t.span, n⟩, ⟨rest, t.span.hi⟩)
      | .str v he => .ok (.strE ⟨t.span, v, he⟩, ⟨rest, t.span.hi⟩)
      | .word (.ident id) => .ok (.identE ⟨t.span, id⟩, ⟨rest, t.span.hi⟩)
      | .word .wtrue => .ok (.boolE t.span true, ⟨rest, t.span.hi⟩)
      | .word .wfalse => .ok (.boolE t.span false, ⟨rest, t.span.hi⟩)
      | .word .wnull => .ok (.nullE t.span, ⟨rest, t.span.hi⟩)
      | _ => .error (unexpectedErr s)
  | [] => .error (unexpectedErr s)

/-- Modelled from the spec: `parse_binding_element` (full binding-element
grammar is an external collaborator); the model accepts a plain identifier
binding. -/
def parseBindingElement (s : PState) : Except PError (Pat × PState) :=
  match s.tokens with
  | t :: rest =>
      match t.token with
      | .word (.ident id) => .ok (.identPat ⟨t.span, id⟩, ⟨rest, t.span.hi⟩)
      | _ => .error (unexpectedErr s)
  | [] => .error (unexpectedErr s)

/-- Modelled from the spec: `parse_formal_param` (external collaborator);
the model accepts a plain identifier parameter. -/
def parseFormalParam (s : PState) : Except PError (Pat × PState) :=
  match s.tokens with
  | t :: rest =>
      match t.token with
      | .word (.ident id) => .ok (.identPat ⟨t.span, id⟩, ⟨rest, t.span.hi⟩)
      | _ => .error (unexpectedErr s)
  | [] => .error (unexpectedErr s)

/-- Modelled from the spec: `parse_unique_formal_params` (external
collaborator); the model accepts an empty parameter list or a single
identifier parameter, which covers every method the claims exercise. -/
def parseUniqueFormalParams (s : PState) : Except PError (List Pat × PState) :=
  match s.tokens with
  | t :: rest =>
      match t.token with
      | .rparen => .ok ([], s)
      | .word (.ident id) => .ok ([.identPat ⟨t.span, id⟩], ⟨rest, t.span.hi⟩)
      | _ => .error (unexpectedErr s)
  | [] => .error (unexpectedErr s)

/-- Modelled from the spec §4.2/§74: `parse_fn_args_body(start, params, …)`
(defined outside the provided sources) parses `( params ) { body }` and
builds a `Function` whose parameter list is exactly what the supplied
parameter parser produced; the statement body is external, so the model
requires an empty body `{}` (every claim-relevant body is empty). -/
def parseFnArgsBody
    (paramsP : PState → Except PError (List Pat × PState))
    (asyncSpan genSpan : Option Span) (s : PState) :
    Except PError (FunctionE × PState) := do
  let s1 ← expectTok .lparen s
  let (params, s2) ← paramsP s1
  let s3 ← expectTok .rparen s2
  let bodyStart := curPos s3
  let s4 ← expectTok .lbrace s3
  let s5 ← expectTok .rbrace s4
  .ok (⟨params, ⟨bodyStart, s5.lastPos⟩, asyncSpan.isSome, genSpan.isSome⟩, s5)

/-! ## The object production (`src/parser/object.rs`) -/

/-- `parse_prop_name` — spec production 'PropertyName'
(`src/parser/object.rs:37`): string literal, numeric literal, word
(identifier or keyword used as a name), or `[` assignment-expression `]`
as a computed key; anything else is an unexpected-token error. -/
def parsePropName (s : PState) : Except PError (PropName × PState) := do
  let start := curPos s
  match curTok s with
  | some (.str value has_escape) =>
      let s1 := bumpTok s
      .ok (.strP ⟨mkSpan start s1, value, has_escape⟩, s1)
  | some (.num value) =>
      let s1 := bumpTok s
      .ok (.numP ⟨mkSpan start s1, value⟩, s1)
  | some (.word w) =>
      let s1 := bumpTok s
      .ok (.identP ⟨mkSpan start s1, w.text⟩, s1)
  | some .lbracket =>
      let s1 := bumpTok s
      let (expr, s2) ← parseAssignExpr s1
      let s3 ← expectTok .rbracket s2
      .ok (.computed expr, s3)
  | _ => .error (unexpectedErr s)

/-- `parse_object_prop` for the `Box<Expr>` target — spec production
'PropertyDefinition' (`src/parser/object.rs:88`). -/
def parseObjectPropExpr (s : PState) : Except PError (PropE × PState) := do
  let start := curPos s
  -- Parse as 'MethodDefinition': leading `*` marks a generator method.
  match eatTok (.binOp .mul) s with
  | (true, sg) =>
      let spanOfGen := mkSpan start sg
      let (name, s1) ← parsePropName sg
      let (f, s2) ← parseFnArgsBody parseUniqueFormalParams none (some spanOfGen) s1
      .ok (.methodP name f, s2)
  | (false, _) =>
  let (key, s1) ← parsePropName s
  -- { a: expr, } / { 'a': a, } / { 0: 1, } / {[computed()]: a,}
  match eatTok .colon s1 with
  | (true, s2) =>
      let (value, s3) ← parseAssignExpr s2
      .ok (.keyValue key value, s3)
  | (false, _) =>
  -- Handle `a(){}` (and async(){} / get(){} / set(){})
  if isTok .lparen s1 then do
    let (f, s2) ← parseFnArgsBody parseUniqueFormalParams none none s1
    .ok (.methodP key f, s2)
  else do
  let ident ← match key with
    | .identP ident => pure ident
    | _ => .error (unexpectedErr s1)
  -- `ident` is an 'IdentifierName': check invalid expressions like { for, }
  if isTok (.assignOp .assign) s1 || isTok .comma s1 || isTok .rbrace s1 then do
    if isReservedWord ident.sym then
      .error ⟨ident.span, .reservedWordInObjShorthandOrPat⟩
    else
    match eatTok (.assignOp .assign) s1 with
    | (true, s2) =>
        let (value, s3) ← parseAssignExpr s2
        .ok (.assignP ident value, s3)
    | (false, _) => .ok (.shorthand ident, s1)
  else
  -- get a(){} / set a(v){} / async a(){}
  if ident.sym = "get" then do
    let (key2, s2) ← parsePropName s1
    let (f, s3) ← parseFnArgsBody (fun st => .ok ([], st)) none none s2
    .ok (.getter (mkSpan start s3) key2 f.body, s3)
  else if ident.sym = "set" then do
    let (key2, s2) ← parsePropName s1
    let (f, s3) ← parseFnArgsBody
        (fun st => (parseFormalParam st).map (fun r => ([r.1], r.2))) none none s2
    -- assert_eq!(params.len(), 1) and unwrap of the single parameter
    match f.params with
    | [param] => .ok (.setter (mkSpan start s3) key2 f.body param, s3)
    | _ => .error ⟨mkSpan start s3, .unexpected⟩
  else if ident.sym = "async" then do
    let (key2, s2) ← parsePropName s1
    let (f, s3) ← parseFnArgsBody parseUniqueFormalParams (some ident.span) none s2
    .ok (.methodP key2 f, s3)
  else
    .error (unexpectedErr s1)

/-- `parse_object_prop` for the `Pat` target — production 'BindingProperty'
(`src/parser/object.rs:205`). -/
def parseObjectPropPat (s : PState) : Except PError (ObjectPatProp × PState) := do
  let start := curPos s
  let (key, s1) ← parsePropName s
  match eatTok .colon s1 with
  | (true, s2) =>
      let (value, s3) ← parseBindingElement s2
      .ok (.keyValuePat key value, s3)
  | (false, _) =>
  let key ← match key with
    | .identP ident => pure ident
    | _ => .error (unexpectedErr s1)
  match eatTok (.assignOp .assign) s1 with
  | (true, s2) =>
      let (value, s3) ← parseAssignExpr s2
      .ok (.assignPat (mkSpan start s3) key (some value), s3)
  | (false, _) =>
      if isReservedWord key.sym then
        .error ⟨key.span, .reservedWordInObjShorthandOrPat⟩
      else
        .ok (.assignPat (mkSpan start s1) key none, s1)

/-- The shared list-parsing skeleton of `parse_object`
(`src/parser/object.rs:8`): after the `{`, loop accumulating properties
separated by commas, allowing a trailing comma before `}`. Fuel-indexed;
each iteration consumes at least one token, so `tokens.length + 1` fuel
suffices. -/
def parseObjectProps {P : Type}
    (propP : PState → Except PError (P × PState)) :
    Nat → Bool → List P → PState → Except PError (List P × PState)
  | 0, _, _, s => .error ⟨curSpan s, .unexpected⟩
  | fuel + 1, first, acc, s =>
      match eatTok .rbrace s with
      | (true, s1) => .ok (acc.reverse, s1)
      | (false, _) =>
          if first then do
            let (p, s2) ← propP s
            parseObjectProps propP fuel false (p :: acc) s2
          else do
            let s1 ← expectTok .comma s
            match eatTok .rbrace s1 with
            | (true, s2) => .ok (acc.reverse, s2)
            | (false, _) => do
                let (p, s2) ← propP s1
                parseObjectProps propP fuel false (p :: acc) s2

/-- `parse_object::<Box<Expr>>`: `{ PropertyList }` into an `ObjectLit`. -/
def parseObjectExpr (s : PState) : Except PError (Expr × PState) := do
  let start := curPos s
  let s1 ← expectTok .lbrace s   -- assert_and_bump!('{')
  let (props, s2) ← parseObjectProps parseObjectPropExpr (s1.tokens.length + 1) true [] s1
  .ok (.object (mkSpan start s2) props, s2)

/-- `parse_object::<Pat>`: `{ PropertyList }` into an `ObjectPat`. -/
def parseObjectPat (s : PState) : Except PError (Pat × PState) := do
  let start := curPos s
  let s1 ← expectTok .lbrace s
  let (props, s2) ← parseObjectProps parseObjectPropPat (s1.tokens.length + 1) true [] s1
  .ok (.objectPat (mkSpan start s2) props, s2)

/-- Lex a source text (script context) and hand the token stream to the
object production. -/
def pstateOf (s : List Char) : PState :=
  ⟨lex s, 0⟩

/-- Parse a source text as an object literal expression. -/
def parseObjectExprOf (s : List Char) : Except PError (Expr × PState) :=
  parseObjectExpr (pstateOf s)

/-- Parse a source text as an object pattern. -/
def parseObjectPatOf (s : List Char) : Except PError (Pat × PState) :=
  parseObjectPat (pstateOf s)

/-! ## Observation helpers for stating the claims -/

/-- The variant of an expression-side property. -/
inductive PropShape where
  | shorthandS | keyValueS | assignS | getterS | setterS | methodS
  deriving DecidableEq, Repr

def PropE.shape : PropE → PropShape
  | .shorthand _ => .shorthandS
  | .keyValue _ _ => .keyValueS
  | .assignP _ _ => .assignS
  | .getter _ _ _ => .getterS
  | .setter _ _ _ _ => .setterS
  | .methodP _ _ => .methodS

/-- Summary of a property key: plain identifier, string, number, computed
key whose expression is an identifier, or anything else. -/
inductive KeyDesc where
  | idK (s : String)
  | strK (s : String)
  | numK (n : Nat)
  | compIdentK (s : String)
  | otherK
  deriving DecidableEq, Repr

def PropName.desc : PropName → KeyDesc
  | .identP i => .idK i.sym
  | .strP s => .strK s.value
  | .numP n => .numK n.value
  | .computed (.identE i) => .compIdentK i.sym
  | .computed _ => .otherK

/-- Key summary of an expression-side property (for a shorthand or
assign property, the identifier itself). -/
def PropE.keyDesc : PropE → KeyDesc
  | .shorthand i => .idK i.sym
  | .keyValue k _ => k.desc
  | .assignP i _ => .idK i.sym
  | .getter _ k _ => k.desc
  | .setter _ k _ _ => k.desc
  | .methodP k _ => k.desc

/-- Properties of a successful expression-object parse. -/
def parsedExprProps : Except PError (Expr × PState) → Option (List PropE)
  | .ok (.object _ props, _) => some props
  | _ => none

/-- Properties of a successful object-pattern parse. -/
def parsedPatProps : Except PError (Pat × PState) → Option (List ObjectPatProp)
  | .ok (.objectPat _ props, _) => some props
  | _ => none

/-- The error kind of a failed parse. -/
def parseErrKind {α : Type} : Except PError α → Option SyntaxErrorKind
  | .error e => some e.kind
  | .ok _ => none

/-- Summary of a pattern-side property: key-value, identifier with a
default, or bare identifier binding. -/
inductive PatPropShape where
  | keyValueP
  | assignDefaultP (key : String)
  | assignBareP (key : String)
  deriving DecidableEq, Repr

def ObjectPatProp.shape : ObjectPatProp → PatPropShape
  | .keyValuePat _ _ => .keyValueP
  | .assignPat _ k (some _) => .assignDefaultP k.sym
  | .assignPat _ k none => .assignBareP k.sym

/-- Was at least one line terminator in `src` strictly between positions
`a` (inclusive) and `b` (exclusive)? -/
def gapHasLb (src : List Char) (a b : Nat) : Bool :=
  ((src.drop a).take (b - a)).any isLineTerminator

/-- The C2 claim as literally stated: for every emitted token the
`had_line_break` flag holds iff at least one line terminator lies strictly
between the previous token's end and this token's start, where a first
token's "previous end" is the start of the input (so a first token with no
line terminator before it would carry `false`). -/
def lineBreakFlagAsClaimed (src : List Char) : Prop :=
  (∀ t ∈ (lex src).head?, t.had_line_break = gapHasLb src 0 t.span.lo) ∧
  (lex src).Chain' (fun a b => b.had_line_break = gapHasLb src a.span.hi b.span.lo)

/-! ## Claim theorems -/

/-- The trivia scanner reports a line break exactly when one of the skipped
characters is a line terminator. -/
lemma skipTrivia_lb_spec (mode : TriviaMode) (lb : Bool) (l : List Char) :
    (skipTrivia mode lb l).2 =
      (lb || (l.take (skipTrivia mode lb l).1).any isLineTerminator) := by
  induction mode, lb, l using skipTrivia.induct <;>
    simp_all [skipTrivia, isLineTerminator, isWsChar]

/-- One lexer step: the successor state is no longer "first", resumes at
the token's end, and the emitted flag is `isFirst` or a line terminator in
the gap between the previous position and the token's start. -/
lemma lexStep_spec (src : List Char) (st : LexState) (t : TokenAndSpan)
    (st' : LexState) (h : lexStep src st = some (t, st')) :
    st'.isFirst = false ∧ st'.pos = t.span.hi ∧
      t.had_line_break = (st.isFirst || gapHasLb src st.pos t.span.lo) := by
  unfold lexStep at h
  dsimp only at h
  split at h
  · exact absurd h (by simp)
  next c cs heq =>
    simp only [Option.some.injEq, Prod.mk.injEq] at h
    obtain ⟨ht, hst⟩ := h
    subst ht
    subst hst
    refine ⟨rfl, rfl, ?_⟩
    have hs := skipTrivia_lb_spec .normal false (src.drop st.pos)
    simp only [Bool.false_or] at hs
    simp [gapHasLb, Nat.add_sub_cancel_left, hs]

/-- Every token list the lexer loop emits: the head's flag is `isFirst` or
a gap line break, and consecutive tokens are related by the gap between
the previous token's end and the next token's start. -/
lemma lexLoop_flag_spec (src : List Char) : ∀ (fuel : Nat) (st : LexState),
    (∀ t ∈ (lexLoop src fuel st).head?,
        t.had_line_break = (st.isFirst || gapHasLb src st.pos t.span.lo)) ∧
    (lexLoop src fuel st).Chain'
      (fun a b => b.had_line_break = gapHasLb src a.span.hi b.span.lo) := by
  intro fuel
  induction fuel with
  | zero => intro st; simp [lexLoop]
  | succ n ih =>
    intro st
    cases h : lexStep src st with
    | none => simp [lexLoop, h]
    | some r =>
      obtain ⟨t, st2⟩ := r
      have hs := lexStep_spec src st t st2 h
      constructor
      · intro u hu
        simp only [lexLoop, h, List.head?_cons, Option.mem_def,
          Option.some.injEq] at hu
        subst hu
        exact hs.2.2
      · show (lexLoop src (n + 1) st).Chain' _
        rw [show lexLoop src (n + 1) st = t :: lexLoop src n st2 by
          simp [lexLoop, h]]
        rw [List.chain'_cons']
        refine ⟨?_, (ih st2).2⟩
        intro y hy
        have hflag := (ih st2).1 y hy
        rw [hflag, hs.1, hs.2.1]
        simp

/-- C1: parsing `"{ a: 1, b, c(){}, get d(){}, [e]: f }"` as an expression
object succeeds with exactly five properties in source order — KeyValue
`a`, Shorthand `b`, Method `c`, Getter `d`, and KeyValue with a computed
key `e`; and in the shared property-list skeleton, a comma followed
immediately by `}` ends the list with exactly the already-accumulated
properties, so a trailing comma never produces an extra property (for
either target's property list). -/
theorem object_roundtrip_and_trailing_comma :
    ((parsedExprProps (parseObjectExprOf
        "{ a: 1, b, c(){}, get d(){}, [e]: f }".toList)).map
      (List.map (fun p => (p.shape, p.keyDesc))) =
      some [(.keyValueS, .idK "a"), (.shorthandS, .idK "b"),
            (.methodS, .idK "c"), (.getterS, .idK "d"),
            (.keyValueS, .compIdentK "e")]) ∧
    (∀ (P : Type) (propP : PState → Except PError (P × PState))
       (fuel : Nat) (acc : List P) (s : PState)
       (t1 t2 : TokenAndSpan) (rest : List TokenAndSpan),
       s.tokens = t1 :: t2 :: rest → t1.token = .comma → t2.token = .rbrace →
       parseObjectProps propP (fuel + 1) false acc s =
         .ok (acc.reverse, ⟨rest, t2.span.hi⟩)) := by
  constructor
  · rfl
  · intro P propP fuel acc s t1 t2 rest h1 h2 h3
    simp [parseObjectProps, eatTok, expectTok, curTok, bumpTok, h1, h2, h3,
      bind, Except.bind, List.head?]

/-- C1 witness: the trailing-comma part applied at a concrete state. -/
theorem object_roundtrip_and_trailing_comma_witness :
    parseObjectProps (P := Unit) (fun s => .error (unexpectedErr s)) 1 false []
      ⟨[⟨.comma, ⟨1, 2⟩, false⟩, ⟨.rbrace, ⟨2, 3⟩, false⟩], 1⟩ =
      .ok ([], ⟨[], 3⟩) :=
  object_roundtrip_and_trailing_comma.2 Unit (fun s => .error (unexpectedErr s))
    0 [] ⟨[⟨.comma, ⟨1, 2⟩, false⟩, ⟨.rbrace, ⟨2, 3⟩, false⟩], 1⟩
    ⟨.comma, ⟨1, 2⟩, false⟩ ⟨.rbrace, ⟨2, 3⟩, false⟩ [] rfl rfl rfl

/-- C2 counterexample: the claim as stated fails on the input `"a"` — its
first token is emitted with `had_line_break = true` although no line
terminator precedes it (the test suite records `.lb()` on every first
token, e.g. `read_word` at `src/lexer/tests.rs:354`). -/
theorem line_break_flag_first_token_counterexample :
    ¬ lineBreakFlagAsClaimed ['a'] := by
  intro hc
  have h := hc.1 ⟨.word (.ident "a"), ⟨0, 1⟩, true⟩ rfl
  exact absurd h (by decide)

/-- C2 amended: the first emitted token always has `had_line_break = true`
(the start of input counts as after a line break, as the test suite's
`.lb()` on first tokens records); every later token's flag is true iff at
least one line terminator lies strictly between the previous token's end
and this token's start (comments being skipped like whitespace). -/
theorem line_break_flag_spec (src : List Char) :
    (∀ t ∈ (lex src).head?, t.had_line_break = true) ∧
    (lex src).Chain'
      (fun a b => b.had_line_break = gapHasLb src a.span.hi b.span.lo) := by
  have h := lexLoop_flag_spec src (src.length + 1) (initState false false)
  constructor
  · intro t ht
    have h1 := h.1 t (by simpa [lex] using ht)
    simpa [initState] using h1
  · simpa [lex] using h.2

/-- C2 witness: the amended theorem applied to the input `"a"`. -/
theorem line_break_flag_spec_witness :
    ({ token := .word (.ident "a"), span := ⟨0, 1⟩, had_line_break := true } :
      TokenAndSpan).had_line_break = true :=
  (line_break_flag_spec ['a']).1 ⟨.word (.ident "a"), ⟨0, 1⟩, true⟩ rfl

set_option maxHeartbeats 2000000 in
/-- C3: `"(false) /42/"` lexes with the two `/` as division operators and
`42` between them (no regex token), while `"{} /42/"` lexes as `{`, `}`
and a single `Regex` token spanning the whole `/42/`. -/
theorem regex_vs_div_after_paren_and_brace :
    lex "(false) /42/".toList =
      [⟨.lparen, ⟨0, 1⟩, true⟩,
       ⟨.word .wfalse, ⟨1, 6⟩, false⟩,
       ⟨.rparen, ⟨6, 7⟩, false⟩,
       ⟨.binOp .div, ⟨8, 9⟩, false⟩,
       ⟨.num 42, ⟨9, 11⟩, false⟩,
       ⟨.binOp .div, ⟨11, 12⟩, false⟩] ∧
    lex "{} /42/".toList =
      [⟨.lbrace, ⟨0, 1⟩, true⟩,
       ⟨.rbrace, ⟨1, 2⟩, false⟩,
       ⟨.regex ⟨⟨4, 6⟩, "42", false⟩ none, ⟨3, 7⟩, false⟩] := by
  exact ⟨by decide, by decide⟩

set_option maxHeartbeats 2000000 in
/-- C4: `"a = b / hi / g.exec(c).map(d);"` and its newline-split variant
lex to the identical token sequence, in which both `/` are the `Div`
binary operator and no `Regex` token appears. -/
theorem div_disambiguation_spec_001 :
    lexTokens "a = b / hi / g.exec(c).map(d);".toList =
      lexTokens "a = b\n/hi/g.exec(c).map(d);".toList ∧
    lexTokens "a = b / hi / g.exec(c).map(d);".toList =
      [.word (.ident "a"), .assignOp .assign, .word (.ident "b"),
       .binOp .div, .word (.ident "hi"), .binOp .div,
       .word (.ident "g"), .dot, .word (.ident "exec"),
       .lparen, .word (.ident "c"), .rparen,
       .dot, .word (.ident "map"), .lparen, .word (.ident "d"), .rparen,
       .semi] ∧
    (lexTokens "a = b / hi / g.exec(c).map(d);".toList).count (.binOp .div) = 2 ∧
    (lexTokens "a = b / hi / g.exec(c).map(d);".toList).countP
      (fun t => match t with | .regex _ _ => true | _ => false) = 0 := by
  refine ⟨rfl, rfl, by decide, by decide⟩

/-- C5: `"{ for }"` fails with `ReservedWordInObjShorthandOrPat` both as an
object expression and as an object pattern. -/
theorem reserved_word_shorthand_rejected :
    parseErrKind (parseObjectExprOf "{ for }".toList) =
      some .reservedWordInObjShorthandOrPat ∧
    parseErrKind (parseObjectPatOf "{ for }".toList) =
      some .reservedWordInObjShorthandOrPat := by
  exact ⟨rfl, rfl⟩

/-- C6: `"{ a(){} }"` fails as an object pattern (the list skeleton's
`expect!(',')` hits the `(`), while the identical text parses as an object
expression, producing a single Method property for `a`. -/
theorem method_shape_rejected_in_pattern :
    parseErrKind (parseObjectPatOf "{ a(){} }".toList) = some .expectedToken ∧
    (parsedExprProps (parseObjectExprOf "{ a(){} }".toList)).map
      (List.map (fun p => (p.shape, p.keyDesc))) =
      some [(.methodS, .idK "a")] := by
  exact ⟨rfl, rfl⟩

/-- C7: in module (strict) context, `"01"` lexes to exactly one token, an
`Error` token of kind `LegacyOctal` spanning the whole literal, and `"08"`
to exactly one `Error` token of kind `LegacyDecimal` — errors are emitted
as tokens, not by halting. -/
theorem module_legacy_numeric_errors :
    lexModule "01".toList =
      [⟨.error ⟨⟨0, 2⟩, .legacyOctal⟩, ⟨0, 2⟩, true⟩] ∧
    lexModule "08".toList =
      [⟨.error ⟨⟨0, 2⟩, .legacyDecimal⟩, ⟨0, 2⟩, true⟩] := by
  exact ⟨rfl, rfl⟩

set_option maxHeartbeats 2000000 in
/-- C8: string escape decoding — `'\x61'` yields `Str "a"`,
`'Hello\012World'` yields `Str "Hello\nWorld"` (octal escape decoded to a
newline), and `'\u{00000000034}'` yields `Str "4"`; all three tokens have
`has_escape = true`. -/
theorem string_escape_decoding :
    lex ['\'', '\\', 'x', '6', '1', '\''] =
      [⟨.str "a" true, ⟨0, 6⟩, true⟩] ∧
    lex ("'Hello".toList ++ ['\\', '0', '1', '2'] ++ "World'".toList) =
      [⟨.str "Hello\nWorld" true, ⟨0, 16⟩, true⟩] ∧
    lex (['\'', '\\', 'u'] ++ ['{'] ++
         ['0', '0', '0', '0', '0', '0', '0', '0', '0', '3', '4'] ++
         ['}'] ++ ['\'']) =
      [⟨.str "4" true, ⟨0, 17⟩, true⟩] := by
  refine ⟨by decide, by decide, by decide⟩

/-- C9: with the setter branch's parameter parser (a single
`parse_formal_param` result wrapped in a one-element vector), a successful
`parse_fn_args_body` always yields a `Function` whose parameter list has
length exactly 1, so the `Setter` construction (the length assertion and
the unwrap of the single parameter) is total. -/
theorem setter_params_length_one (s : PState) (f : FunctionE) (s' : PState)
    (h : parseFnArgsBody
        (fun st => (parseFormalParam st).map (fun r => ([r.1], r.2)))
        none none s = .ok (f, s')) :
    f.params.length = 1 := by
  unfold parseFnArgsBody at h
  simp only [bind, Except.bind, Except.map] at h
  split at h
  · simp at h
  next s1 _ =>
    cases hp : parseFormalParam s1 with
    | error e =>
        rw [hp] at h
        simp at h
    | ok p =>
        rw [hp] at h
        dsimp only at h
        repeat' split at h
        all_goals simp only [Except.ok.injEq, Prod.mk.injEq, reduceCtorEq] at h
        obtain ⟨hf, _⟩ := h
        subst hf
        rfl

/-- C9 witness: the setter-shaped parameter list `(v){}` parses to a
function with exactly one parameter. -/
theorem setter_params_length_one_witness :
    (FunctionE.mk [.identPat ⟨⟨1, 2⟩, "v"⟩] ⟨3, 5⟩ false false).params.length = 1 :=
  setter_params_length_one (pstateOf "(v){}".toList)
    (FunctionE.mk [.identPat ⟨⟨1, 2⟩, "v"⟩] ⟨3, 5⟩ false false) ⟨[], 5⟩ rfl

/-- C10: `"{ for = 1 }"` parses successfully as an object pattern (the
reserved-word check is skipped when `=` follows), yielding an Assign
property for `for` with a default, while the same text as an object
expression fails with `ReservedWordInObjShorthandOrPat` (the check runs
before `=` is consumed). -/
theorem reserved_word_default_asymmetry :
    (parsedPatProps (parseObjectPatOf "{ for = 1 }".toList)).map
      (List.map ObjectPatProp.shape) = some [.assignDefaultP "for"] ∧
    parseErrKind (parseObjectExprOf "{ for = 1 }".toList) =
      some .reservedWordInObjShorthandOrPat := by
  exact ⟨rfl, rfl⟩

end Swc
